import Mathlib

/-!
Verification development for the esports-calendar feed-rendering core
(Cloudflare Pages function at functions/api/calendar.ts).

The definitions below are a shallow embedding of the TypeScript source:
JavaScript strings become Lean String values (manipulated through their
underlying Char lists so that everything evaluates inside the kernel),
numbers become Int, fallible steps become Option/Except-style sums, and
the request handler becomes a pure function of its already-materialized
inputs.
-/

set_option maxHeartbeats 1000000

namespace EsCal

/-! ### Character and string helpers (JavaScript string primitives) -/

/-- The backslash character, written via its code point. -/
def bslash : Char := Char.ofNat 92

/-- The double-quote character, written via its code point. -/
def dquote : Char := Char.ofNat 34

/-- The apostrophe character, written via its code point. -/
def squote : Char := Char.ofNat 39

/-- JavaScript String.prototype.toLowerCase, restricted to the ASCII range
(Char.toLower), acting on the character list of a string. -/
def lowerStr (s : String) : String := String.mk (s.data.map Char.toLower)

/-- The whitespace class of the JavaScript regular expression escape \s
(space, tab, newline, carriage return, vertical tab, form feed). -/
def isJsWs (c : Char) : Bool :=
  c = ' ' || c = Char.ofNat 9 || c = Char.ofNat 10 || c = Char.ofNat 13 ||
    c = Char.ofNat 11 || c = Char.ofNat 12

/-- JavaScript replace of every maximal whitespace run by a single hyphen
(the source expression .replace of \s+ by "-").  The Boolean flag records
whether the previous character was part of a whitespace run. -/
def wsCollapse : Bool → List Char → List Char
  | _, [] => []
  | inRun, c :: cs =>
    if isJsWs c then
      if inRun then wsCollapse true cs else '-' :: wsCollapse true cs
    else
      c :: wsCollapse false cs

/-- Whether the first list is a prefix of the second, as a Boolean. -/
def startsWithList : List Char → List Char → Bool
  | [], _ => true
  | _ :: _, [] => false
  | a :: as, b :: bs => a = b && startsWithList as bs

/-- Whether the first list occurs as a contiguous sublist of the second:
the model of JavaScript String.prototype.includes. -/
def hasSubList (n : List Char) : List Char → Bool
  | [] => startsWithList n []
  | c :: cs => startsWithList n (c :: cs) || hasSubList n cs

/-- Concatenation of the images of a character-to-list function: the
shape shared by every global single-character regex replacement in the
source. -/
def mapJoin (f : Char → List Char) : List Char → List Char
  | [] => []
  | c :: cs => f c ++ mapJoin f cs

/-- One replacement step of a global single-character pattern: a matching
character becomes the replacement list, anything else stays. -/
def repChar (t : Char) (r : List Char) (d : Char) : List Char :=
  if d = t then r else [d]

/-- JavaScript s.replace of every occurrence of the character t by the
string r. -/
def replaceCharStr (s : String) (t : Char) (r : String) : String :=
  String.mk (mapJoin (repChar t r.data) s.data)

/-- JavaScript String.prototype.trim. -/
def trimStr (s : String) : String :=
  String.mk (((s.data.dropWhile isJsWs).reverse.dropWhile isJsWs).reverse)

/-- JavaScript String.prototype.split with a single-character separator. -/
def splitChar (sep : Char) : List Char → List (List Char)
  | [] => [[]]
  | c :: cs =>
    let r := splitChar sep cs
    if c = sep then [] :: r
    else
      match r with
      | [] => [[c]]
      | h :: t => (c :: h) :: t

/-- String.prototype.padStart with width 2 and pad character zero. -/
def pad2 (s : String) : String :=
  String.mk (List.replicate (2 - s.data.length) '0' ++ s.data)

/-- Decimal value of a list of digit characters. -/
def natOfDigits (cs : List Char) : Nat :=
  cs.foldl (fun a c => a * 10 + (c.toNat - 48)) 0

/-- Lexicographic comparison of character lists, modelling the default
(code-unit) string comparison used by a JavaScript Array.prototype.sort
with no comparator. -/
def listLtb : List Char → List Char → Bool
  | [], [] => false
  | [], _ :: _ => true
  | _ :: _, [] => false
  | a :: as, b :: bs => if a < b then true else if b < a then false else listLtb as bs

/-- String comparison built on listLtb. -/
def strLtb (s t : String) : Bool := listLtb s.data t.data

/-! ### Calendar date arithmetic (the UTC accessors of the JavaScript
Date object, via the standard days-from-civil correspondence) -/

/-- Civil (year, month, day) from a count of days since the Unix epoch. -/
def civilFromDays (z0 : Int) : Int × Int × Int :=
  let z := z0 + 719468
  let era := Int.fdiv z 146097
  let doe := z - era * 146097
  let yoe := Int.ediv (doe - Int.ediv doe 1460 + Int.ediv doe 36524 - Int.ediv doe 146096) 365
  let y := yoe + era * 400
  let doy := doe - (365 * yoe + Int.ediv yoe 4 - Int.ediv yoe 100)
  let mp := Int.ediv (5 * doy + 2) 153
  let d := doy - Int.ediv (153 * mp + 2) 5 + 1
  let m := mp + (if mp < 10 then 3 else -9)
  (y + (if m ≤ 2 then 1 else 0), m, d)

/-- Days since the Unix epoch from a civil (year, month, day). -/
def daysFromCivil (y m d : Int) : Int :=
  let y1 := y - (if m ≤ 2 then 1 else 0)
  let era := Int.fdiv y1 400
  let yoe := y1 - era * 400
  let doy := Int.ediv (153 * (m + (if m > 2 then -3 else 9)) + 2) 5 + d - 1
  let doe := yoe * 365 + Int.ediv yoe 4 - Int.ediv yoe 100 + doy
  era * 146097 + doe - 719468

/-- JavaScript Date.prototype.toISOString for an epoch-seconds value, as
the source computes new Date(timestamp * 1000).toISOString(): the wall
clock fields are derived in UTC and the millisecond part is always 000. -/
def toISOString (tsec : Int) : String :=
  let days := Int.fdiv tsec 86400
  let sod := tsec - days * 86400
  let ymd := civilFromDays days
  toString ymd.1 ++ "-" ++ pad2 (toString ymd.2.1) ++ "-" ++ pad2 (toString ymd.2.2) ++
    "T" ++ pad2 (toString (Int.ediv sod 3600)) ++ ":" ++
    pad2 (toString (Int.ediv (Int.emod sod 3600) 60)) ++ ":" ++
    pad2 (toString (Int.emod sod 60)) ++ ".000Z"

/-- JavaScript new Date(isoString).getTime() for the fixed-layout ISO
strings produced by toISOString: field extraction at fixed offsets. -/
def jsDateMs (s : String) : Int :=
  let cs := s.data
  let y : Int := natOfDigits (cs.take 4)
  let mo : Int := natOfDigits ((cs.drop 5).take 2)
  let da : Int := natOfDigits ((cs.drop 8).take 2)
  let h : Int := natOfDigits ((cs.drop 11).take 2)
  let mi : Int := natOfDigits ((cs.drop 14).take 2)
  let se : Int := natOfDigits ((cs.drop 17).take 2)
  let ms : Int := natOfDigits ((cs.drop 20).take 3)
  (daysFromCivil y mo da * 86400 + h * 3600 + mi * 60 + se) * 1000 + ms

/-- The longest digit prefix of a character list, as a decimal value;
none when there is no leading digit (the NaN case of parseInt). -/
def digitVal (cs : List Char) : Option Nat :=
  let ds := cs.takeWhile Char.isDigit
  if ds = [] then none else some (natOfDigits ds)

/-- JavaScript parseInt(s, 10): skip leading whitespace, read an optional
sign, then the longest digit prefix; NaN (none) when no digit follows. -/
def jsParseInt (s : String) : Option Int :=
  match s.data.dropWhile isJsWs with
  | '-' :: rest => (digitVal rest).map (fun n => -(n : Int))
  | '+' :: rest => (digitVal rest).map (fun n => (n : Int))
  | rest => (digitVal rest).map (fun n => (n : Int))

/-! ### Data model (the interfaces of functions/api/calendar.ts) -/

/-- The TeamInfo interface. -/
structure TeamInfo where
  name : String
  slug : String
  short_name : String
  emoji : String
  game : String
  liquipedia_url : String
  logo_url : Option String := none
  deriving DecidableEq

/-- The MatchData interface.  The url field uses the empty string for a
missing URL, matching the truthiness tests of the source.  The optional
score field appears in the repository test fixtures and data files; the
interface in functions/api/calendar.ts omits it and the renderer never
reads it. -/
structure MatchData where
  timestamp : Int
  opponent : String
  tournament : String
  url : String
  is_upcoming : Bool
  score : Option String := none
  deriving DecidableEq

/-- The TeamData interface. -/
structure TeamData where
  team : TeamInfo
  «matches» : List MatchData
  generated_utc : String
  deriving DecidableEq

/-- The request URL parts the renderers read (url.origin and
url.toString()). -/
structure UrlInfo where
  origin : String
  full : String
  deriving DecidableEq

/-! ### ICS generation (RFC 5545), from generateICS / generateVEvent /
formatICSDate / icsEscape -/

/-- The character class of the icsEscape regex: backslash, semicolon,
comma. -/
def icsSpecial (c : Char) : Bool := c = bslash || c = ';' || c = ','

/-- icsEscape: text.replace of every character in the class by a
backslash followed by that character. -/
def icsEscape (s : String) : String :=
  String.mk (mapJoin (fun c => if icsSpecial c then [bslash, c] else [c]) s.data)

/-- formatICSDate: UTC basic date-time format YYYYMMDDThhmmssZ of an
epoch-seconds value. -/
def formatICSDate (tsec : Int) : String :=
  let days := Int.fdiv tsec 86400
  let sod := tsec - days * 86400
  let ymd := civilFromDays days
  toString ymd.1 ++ pad2 (toString ymd.2.1) ++ pad2 (toString ymd.2.2) ++ "T" ++
    pad2 (toString (Int.ediv sod 3600)) ++ pad2 (toString (Int.ediv (Int.emod sod 3600) 60)) ++
    pad2 (toString (Int.emod sod 60)) ++ "Z"

/-- The opponent normalization of generateVEvent: whitespace runs to
hyphens, then underscores to hyphens, then lowercase. -/
def icsOpponentSlug (opponent : String) : String :=
  lowerStr (String.mk ((wsCollapse false opponent.data).map (fun c => if c = '_' then '-' else c)))

/-- The canonical UID of generateVEvent: the team's lowercased slug and
the normalized opponent name, sorted, joined with -vs-, then the
timestamp and a namespace tag. -/
def icsUid (team : TeamInfo) (m : MatchData) : String :=
  let t0 := lowerStr team.slug
  let t1 := icsOpponentSlug m.opponent
  let p := if strLtb t1 t0 then (t1, t0) else (t0, t1)
  p.1 ++ "-vs-" ++ p.2 ++ "-" ++ toString m.timestamp ++ "@esports-calendar"

/-- The DESCRIPTION value of generateVEvent: tournament, then the match
URL when present, then a completed-match marker when the match is not
upcoming.  The two-character backslash-n sequences of the source are
escaped again by icsEscape, exactly as in the source. -/
def vEventDescription (m : MatchData) : String :=
  let d0 := icsEscape ("Tournament: " ++ m.tournament)
  let d1 := if m.url ≠ "" then d0 ++ icsEscape ("\\n\\nMore info: " ++ m.url) else d0
  if m.is_upcoming then d1 else d1 ++ icsEscape "\\n\\n(Completed match)"

/-- The fixed seven opening lines that generateVEvent always pushes. -/
def vEventBase (team : TeamInfo) (m : MatchData) : List String :=
  ["BEGIN:VEVENT",
   "UID:" ++ icsUid team m,
   "DTSTART:" ++ formatICSDate m.timestamp,
   "DTEND:" ++ formatICSDate (m.timestamp + 2 * 60 * 60),
   "SUMMARY:" ++ icsEscape (team.emoji ++ " " ++ team.short_name ++ " vs " ++ m.opponent),
   "DESCRIPTION:" ++ vEventDescription m,
   "STATUS:CONFIRMED"]

/-- The URL line, pushed only when the match URL is truthy. -/
def vEventUrl (m : MatchData) : List String :=
  if m.url ≠ "" then ["URL:" ++ m.url] else []

/-- The TRANSP line, pushed only for non-upcoming matches. -/
def vEventTransp (m : MatchData) : List String :=
  if m.is_upcoming then [] else ["TRANSP:TRANSPARENT"]

/-- The VALARM block, pushed only for upcoming matches with a positive
reminder. -/
def vEventAlarm (team : TeamInfo) (m : MatchData) (reminderMinutes : Int) : List String :=
  if m.is_upcoming && decide (0 < reminderMinutes) then
    ["BEGIN:VALARM",
     "ACTION:DISPLAY",
     "DESCRIPTION:" ++ icsEscape (team.name ++ " vs " ++ m.opponent ++ " starts in " ++
       toString reminderMinutes ++ " minutes!"),
     "TRIGGER:-PT" ++ toString reminderMinutes ++ "M",
     "END:VALARM"]
  else []

/-- generateVEvent: the lines of one VEVENT, in push order. -/
def generateVEvent (team : TeamInfo) (m : MatchData) (reminderMinutes : Int) : List String :=
  vEventBase team m ++ vEventUrl m ++ vEventTransp m ++
    vEventAlarm team m reminderMinutes ++ ["END:VEVENT"]

/-- generateICS: header, one VEVENT per match in team-then-match order,
footer, joined with CRLF and with a terminal CRLF. -/
def generateICS (teams : List TeamData) (reminderMinutes : Int) : String :=
  let teamNames := String.intercalate ", " (teams.map (fun t => t.team.name))
  let header : List String :=
    ["BEGIN:VCALENDAR", "VERSION:2.0",
     "PRODID:-//Esports Calendar//" ++ teamNames ++ "//",
     "CALSCALE:GREGORIAN", "METHOD:PUBLISH",
     "X-WR-CALNAME:" ++ teamNames ++ " Matches",
     "X-PUBLISHED-TTL:PT4H"]
  let body := teams.flatMap (fun td => td.matches.flatMap
    (fun m => generateVEvent td.team m reminderMinutes))
  String.intercalate "\r\n" (header ++ body ++ ["END:VCALENDAR"]) ++ "\r\n"

/-! ### Stable sorting (the model of Array.prototype.sort with a
comparator: any stable sort agrees with the engine's sort when the
comparator is a consistent total preorder) -/

/-- Insert an element in front of the first list element it may precede. -/
def insertLe {α : Type} (le : α → α → Bool) (a : α) : List α → List α
  | [] => [a]
  | b :: bs => if le a b then a :: b :: bs else b :: insertLe le a bs

/-- Stable insertion sort. -/
def sortLe {α : Type} (le : α → α → Bool) : List α → List α
  | [] => []
  | x :: xs => insertLe le x (sortLe le xs)

/-! ### JSON Feed generation, from generateJSONFeed -/

/-- The opponent token of generateJSONFeed: whitespace runs to hyphens,
then lowercase (no underscore substitution, unlike the ICS UID). -/
def jsonOpponentSlug (opponent : String) : String :=
  lowerStr (String.mk (wsCollapse false opponent.data))

/-- The id of a JSON Feed item. -/
def jsonItemId (team : TeamInfo) (m : MatchData) : String :=
  lowerStr team.slug ++ "-" ++ toString m.timestamp ++ "-" ++ jsonOpponentSlug m.opponent

/-- One item of the JSON Feed items array. -/
structure JFItem where
  id : String
  title : String
  date_published : String
  url : String
  tags : List String
  content_text : String
  deriving DecidableEq

/-- The item pushed by generateJSONFeed for one (team, match) pair. -/
def jsonItem (team : TeamInfo) (m : MatchData) : JFItem :=
  { id := jsonItemId team m
    title := team.emoji ++ " " ++ team.short_name ++ " vs " ++ m.opponent
    date_published := toISOString m.timestamp
    url := if m.url ≠ "" then m.url else team.liquipedia_url
    tags := [(if m.is_upcoming then "upcoming" else "completed"), m.tournament]
    content_text := (if m.is_upcoming then "Upcoming" else "Completed") ++ " — " ++ m.tournament }

/-- The sort comparator of generateJSONFeed: item a may precede item b
when the parsed date of b does not exceed the parsed date of a
(the comparator new Date(b).getTime() - new Date(a).getTime() is
non-positive). -/
def jsonItemLe (a b : JFItem) : Bool :=
  decide (jsDateMs b.date_published ≤ jsDateMs a.date_published)

/-- The JSON Feed 1.1 object. -/
structure JSONFeed where
  version : String
  title : String
  home_page_url : String
  feed_url : String
  description : String
  items : List JFItem
  deriving DecidableEq

/-- generateJSONFeed. -/
def generateJSONFeed (teams : List TeamData) (u : UrlInfo) : JSONFeed :=
  let raw := teams.flatMap (fun td => td.matches.map (fun m => jsonItem td.team m))
  let teamNames := String.intercalate ", " (teams.map (fun t => t.team.name))
  { version := "https://jsonfeed.org/version/1.1"
    title := teamNames ++ " Match Schedule"
    home_page_url := u.origin
    feed_url := u.full
    description := "Upcoming and recent matches for " ++ teamNames
    items := sortLe jsonItemLe raw }

/-! ### Atom generation, from generateAtomFeed / xmlEscape -/

/-- xmlEscape: the five global replacements of the source, ampersand
first. -/
def xmlEscape (s : String) : String :=
  replaceCharStr (replaceCharStr (replaceCharStr (replaceCharStr
    (replaceCharStr s '&' "&amp;") '<' "&lt;") '>' "&gt;") dquote "&quot;") squote "&apos;"

/-- The opponent token of generateAtomFeed (textually identical to the
JSON Feed one in the source). -/
def atomOpponentSlug (opponent : String) : String :=
  lowerStr (String.mk (wsCollapse false opponent.data))

/-- The entryId of generateAtomFeed. -/
def atomEntryId (team : TeamInfo) (m : MatchData) : String :=
  lowerStr team.slug ++ "-" ++ toString m.timestamp ++ "-" ++ atomOpponentSlug m.opponent

/-- The value of the id element of one Atom entry. -/
def atomIdUrn (team : TeamInfo) (m : MatchData) : String :=
  "urn:esports-calendar:" ++ atomEntryId team m

/-- The XML text of one Atom entry. -/
def atomEntryXml (team : TeamInfo) (m : MatchData) : String :=
  let dt := toISOString m.timestamp
  let status := if m.is_upcoming then "Upcoming" else "Completed"
  "  <entry>\n    <id>" ++ atomIdUrn team m ++ "</id>\n    <title>" ++
    xmlEscape (team.emoji ++ " " ++ team.short_name ++ " vs " ++ m.opponent) ++
    "</title>\n    <updated>" ++ dt ++ "</updated>\n    <summary>" ++ status ++ " — " ++
    xmlEscape m.tournament ++ "</summary>\n    <link href=\"" ++ xmlEscape m.url ++
    "\" rel=\"alternate\"/>\n    <category term=\"" ++ lowerStr status ++ "\"/>\n  </entry>\n"

/-- The sort comparator of generateAtomFeed: entry a may precede entry b
when b's timestamp does not exceed a's. -/
def atomMatchLe (a b : TeamInfo × MatchData) : Bool :=
  decide (b.2.timestamp ≤ a.2.timestamp)

/-- The flattened (team, match) list of generateAtomFeed, sorted by
timestamp descending. -/
def atomSortedMatches (teams : List TeamData) : List (TeamInfo × MatchData) :=
  sortLe atomMatchLe (teams.flatMap (fun td => td.matches.map (fun m => (td.team, m))))

/-- The feed-level header of the Atom document, up to and including the
generator line. -/
def atomHeader (teams : List TeamData) (u : UrlInfo) (now : String) : String :=
  let teamNames := String.intercalate ", " (teams.map (fun t => t.team.name))
  let teamSlugs := String.intercalate "-" (teams.map (fun t => lowerStr t.team.slug))
  "<?xml version=\"1.0\" encoding=\"UTF-8\"?>\n<feed xmlns=\"http://www.w3.org/2005/Atom\">\n  <id>urn:esports-calendar:" ++
    xmlEscape teamSlugs ++ "</id>\n  <title>" ++ xmlEscape teamNames ++
    " Match Schedule</title>\n  <subtitle>Upcoming and recent matches</subtitle>\n  <updated>" ++
    now ++ "</updated>\n  <link href=\"" ++ xmlEscape u.full ++
    "\" rel=\"self\" type=\"application/atom+xml\"/>\n  <generator>esports-calendar</generator>\n"

/-- generateAtomFeed: header, entries in sorted order, closing tag.  The
render-time wall clock string is passed in as now. -/
def generateAtomFeed (teams : List TeamData) (u : UrlInfo) (now : String) : String :=
  atomHeader teams u now ++
    String.join ((atomSortedMatches teams).map (fun p => atomEntryXml p.1 p.2)) ++ "</feed>\n"

/-! ### Request handling, from onRequest (the GET path; CORS decoration
and the storage tiers are outside the embedded core: resolved team data
arrives through a lookup function) -/

/-- SLUG_PATTERN: one or more characters from [a-zA-Z0-9_-]. -/
def slugOk (s : String) : Bool :=
  s ≠ "" && s.data.all (fun c => c.isAlphanum || c = '_' || c = '-')

/-- The reminder validation of onRequest: absent means the default 30;
otherwise parseInt, rejecting NaN and values outside [0, 1440]. -/
def checkReminder : Option String → Option Int
  | none => some 30
  | some p =>
    match jsParseInt p with
    | none => none
    | some v => if v < 0 || 1440 < v then none else some v

/-- The tournament filter step of onRequest: with a truthy filter, every
team's match list is narrowed in place to the matches whose tournament
contains the lowercased filter. -/
def applyTournamentFilter (filt : String) (l : List TeamData) : List TeamData :=
  if filt = "" then l
  else
    let f := lowerStr filt
    l.map (fun td =>
      { td with «matches» :=
          td.matches.filter (fun m => hasSubList f.data (lowerStr m.tournament).data) })

/-- The responses the handler can produce. -/
inductive CalResponse where
  | badRequest (msg : String)
  | notFound (msg : String)
  | icsOk (body : String)
  | jsonOk (feed : JSONFeed)
  | atomOk (body : String)
  deriving DecidableEq

/-- The filter-then-dispatch tail of onRequest: apply the tournament
filter, then switch on the format. -/
def renderCalendar (format filt : String) (teams : List TeamData) (reminderMinutes : Int)
    (u : UrlInfo) (now : String) : CalResponse :=
  let filtered := applyTournamentFilter filt teams
  match format with
  | "ics" => CalResponse.icsOk (generateICS filtered reminderMinutes)
  | "json" => CalResponse.jsonOk (generateJSONFeed filtered u)
  | "rss" => CalResponse.atomOk (generateAtomFeed filtered u now)
  | _ => CalResponse.badRequest "Unknown format. Use: ics, json, or rss"

/-- The query parameters of one GET request, after the defaulting the
source applies when reading them (format and tournament default to their
fallback strings; the reminder parameter is none when absent). -/
structure CalRequest where
  teamsParam : String
  format : String
  tournamentFilter : String
  reminderParam : Option String
  urlInfo : UrlInfo

/-- The 400 body of a failed reminder validation. -/
def reminderErrorMsg : String :=
  "Invalid \x27reminder\x27 parameter. Must be an integer between 0 and 1440."

/-- The split-trim-filter of the teams parameter. -/
def parseSlugs (teamsParam : String) : List String :=
  (((splitChar ',' teamsParam.data).map String.mk).map trimStr).filter (fun s => s ≠ "")

/-- onRequest (GET): reminder validation, slug parsing and validation,
data resolution through the lookup function, then filter and render. -/
def onRequest (req : CalRequest) (lookup : String → Option TeamData) (now : String) :
    CalResponse :=
  match checkReminder req.reminderParam with
  | none => CalResponse.badRequest reminderErrorMsg
  | some reminderMinutes =>
    let slugs := parseSlugs req.teamsParam
    if slugs.isEmpty then
      CalResponse.badRequest
        "Missing \x27teams\x27 parameter. Usage: /api/calendar?teams=Los_Ratones,Fnatic"
    else
      match slugs.find? (fun s => !slugOk s) with
      | some s => CalResponse.badRequest ("Invalid team slug: " ++ s)
      | none =>
        let teamDataList := slugs.filterMap (fun s => lookup (lowerStr s ++ ".json"))
        if teamDataList.isEmpty then
          CalResponse.notFound "No data found for the requested teams"
        else
          renderCalendar req.format req.tournamentFilter teamDataList reminderMinutes
            req.urlInfo now

/-! ### Specification-side definitions (the vocabulary in which the
escaping claims are stated; the decoders and grammars below are not part
of the source, they express what well-escaped output means) -/

/-- The character class the XML escaper rewrites. -/
def xmlSpecial (c : Char) : Bool :=
  c = '&' || c = '<' || c = '>' || c = dquote || c = squote

/-- The named entity for each character the XML escaper rewrites; any
other character maps to itself. -/
def xmlEntityOf (c : Char) : List Char :=
  if c = '&' then "&amp;".data
  else if c = '<' then "&lt;".data
  else if c = '>' then "&gt;".data
  else if c = dquote then "&quot;".data
  else if c = squote then "&apos;".data
  else [c]

/-- A character list is well escaped for ICS when it parses as a
sequence of units, each either a non-special character or a backslash
followed by exactly the one special character it escapes. -/
inductive IcsEscaped : List Char → Prop where
  | nil : IcsEscaped []
  | plain (c : Char) (h : icsSpecial c = false) (rest : List Char)
      (hr : IcsEscaped rest) : IcsEscaped (c :: rest)
  | esc (c : Char) (h : icsSpecial c = true) (rest : List Char)
      (hr : IcsEscaped rest) : IcsEscaped (bslash :: c :: rest)

/-- The ICS text decoder: a backslash consumes the character after it;
everything else passes through.  Recovering the input exactly witnesses
that escaping altered no other character and inserted nothing beyond the
escapes. -/
def icsUnescape : List Char → List Char
  | [] => []
  | c :: cs =>
    if c = bslash then
      match cs with
      | [] => []
      | d :: ds => d :: icsUnescape ds
    else c :: icsUnescape cs

/-- A character list is well escaped for XML when it parses as a
sequence of units, each either a non-special character or the full named
entity of a special character; in such a list none of the five special
characters occurs outside an entity. -/
inductive XmlEscaped : List Char → Prop where
  | nil : XmlEscaped []
  | safe (c : Char) (h : xmlSpecial c = false) (rest : List Char)
      (hr : XmlEscaped rest) : XmlEscaped (c :: rest)
  | ent (c : Char) (h : xmlSpecial c = true) (rest : List Char)
      (hr : XmlEscaped rest) : XmlEscaped (xmlEntityOf c ++ rest)

/-! ### Concrete fixtures (the team and match records of the repository
test suite, with a fixed timestamp) -/

/-- The Fnatic record of the test fixtures. -/
def teamFnatic : TeamInfo :=
  { name := "Fnatic", slug := "Fnatic", short_name := "FNC", emoji := "🇪🇺",
    game := "leagueoflegends",
    liquipedia_url := "https://liquipedia.net/leagueoflegends/Fnatic" }

/-- The G2 Esports record of the test fixtures: the display name carries
a space where the slug carries an underscore, the Liquipedia convention
the repository documents for slugs. -/
def teamG2 : TeamInfo :=
  { name := "G2 Esports", slug := "G2_Esports", short_name := "G2", emoji := "🇪🇺",
    game := "leagueoflegends",
    liquipedia_url := "https://liquipedia.net/leagueoflegends/G2_Esports" }

/-- The upcoming fixture match, recorded from Fnatic's side. -/
def matchFnaticVsG2 : MatchData :=
  { timestamp := 1700000000, opponent := "G2 Esports", tournament := "LEC 2025 Spring",
    url := "https://liquipedia.net/leagueoflegends/LEC/2025", is_upcoming := true }

/-- The same fixture match, recorded from G2's side. -/
def matchG2VsFnatic : MatchData :=
  { timestamp := 1700000000, opponent := "Fnatic", tournament := "LEC 2025 Spring",
    url := "https://liquipedia.net/leagueoflegends/LEC/2025", is_upcoming := true }

/-- The completed fixture match, which carries a score string. -/
def matchPast : MatchData :=
  { timestamp := 1699913600, opponent := "MAD Lions", tournament := "LEC 2025 Spring",
    url := "https://liquipedia.net/leagueoflegends/LEC/2025", is_upcoming := false,
    score := some "2 : 1" }

/-- One resolved team-data record built from the fixtures. -/
def sampleTeamData : TeamData :=
  { team := teamFnatic, «matches» := [matchFnaticVsG2, matchPast],
    generated_utc := "2025-01-01T00:00:00Z" }

/-- A request URL for the fixtures. -/
def sampleUrl : UrlInfo :=
  { origin := "https://example.com",
    full := "https://example.com/api/calendar?teams=Fnatic" }

/-- A request whose reminder parameter is not numeric. -/
def reqBadReminder : CalRequest :=
  { teamsParam := "Fnatic", format := "ics", tournamentFilter := "",
    reminderParam := some "abc", urlInfo := sampleUrl }

/-- A lookup with no data at all. -/
def lookupNone : String → Option TeamData := fun _ => none

/-! ### Supporting lemmas -/

theorem str_append_ne {lit target : String} (n : Nat) (hn : n ≤ lit.data.length)
    (hx : lit.data.take n ≠ target.data.take n) (s : String) : lit ++ s ≠ target := by
  intro he
  apply hx
  have h1 := congrArg (fun q : String => q.data.take n) he
  simpa [String.data_append, List.take_append_of_le_length hn] using h1

theorem mapJoin_append (f : Char → List Char) (a b : List Char) :
    mapJoin f (a ++ b) = mapJoin f a ++ mapJoin f b := by
  induction a with
  | nil => rfl
  | cons c cs ih => simp [mapJoin, ih]

theorem startsWithList_self_append (n b : List Char) : startsWithList n (n ++ b) = true := by
  induction n with
  | nil => rfl
  | cons c cs ih => simp [startsWithList, ih]

theorem hasSubList_self_append (n b : List Char) : hasSubList n (n ++ b) = true := by
  cases n with
  | nil =>
    cases b with
    | nil => rfl
    | cons c cs => simp [hasSubList, startsWithList]
  | cons c cs =>
    show hasSubList (c :: cs) (c :: (cs ++ b)) = true
    simp [hasSubList, startsWithList, startsWithList_self_append]

theorem hasSubList_append_left (a : List Char) {n t : List Char}
    (h : hasSubList n t = true) : hasSubList n (a ++ t) = true := by
  induction a with
  | nil => exact h
  | cons c cs ih => simp [hasSubList, ih]

theorem mem_mapJoin_infix {c : Char} {l : List Char} (h : c ∈ l) (f : Char → List Char) :
    hasSubList (f c) (mapJoin f l) = true := by
  obtain ⟨a, b, rfl⟩ := List.append_of_mem h
  rw [mapJoin_append]
  apply hasSubList_append_left
  show hasSubList (f c) (f c ++ mapJoin f b) = true
  exact hasSubList_self_append _ _

/-! ### C7: ICS escaping -/

theorem icsEscaped_mapJoin (l : List Char) :
    IcsEscaped (mapJoin (fun c => if icsSpecial c then [bslash, c] else [c]) l) := by
  induction l with
  | nil => exact IcsEscaped.nil
  | cons c cs ih =>
    by_cases h : icsSpecial c = true
    · show IcsEscaped ((if icsSpecial c then [bslash, c] else [c]) ++ _)
      rw [h]
      exact IcsEscaped.esc c h _ ih
    · have h' : icsSpecial c = false := by simpa using h
      show IcsEscaped ((if icsSpecial c then [bslash, c] else [c]) ++ _)
      rw [h']
      exact IcsEscaped.plain c h' _ ih

theorem icsUnescape_cons_of_ne (c : Char) (cs : List Char) (h : ¬ c = bslash) :
    icsUnescape (c :: cs) = c :: icsUnescape cs := by
  conv_lhs => unfold icsUnescape
  rw [if_neg h]

theorem icsUnescape_bslash_cons (c : Char) (cs : List Char) :
    icsUnescape (bslash :: c :: cs) = c :: icsUnescape cs := by
  conv_lhs => unfold icsUnescape
  rw [if_pos rfl]

theorem icsUnescape_mapJoin (l : List Char) :
    icsUnescape (mapJoin (fun c => if icsSpecial c then [bslash, c] else [c]) l) = l := by
  induction l with
  | nil => rfl
  | cons c cs ih =>
    by_cases h : icsSpecial c = true
    · show icsUnescape ((if icsSpecial c then [bslash, c] else [c]) ++ _) = _
      rw [h]
      show icsUnescape (bslash :: c :: _) = _
      rw [icsUnescape_bslash_cons]
      exact congrArg (c :: ·) ih
    · have h' : icsSpecial c = false := by simpa using h
      have hcb : ¬ c = bslash := by
        intro hc
        rw [hc] at h'
        exact absurd h' (by decide)
      show icsUnescape ((if icsSpecial c then [bslash, c] else [c]) ++ _) = _
      rw [h']
      show icsUnescape (c :: _) = _
      rw [icsUnescape_cons_of_ne _ _ hcb]
      exact congrArg (c :: ·) ih

/-- C7: for every input string, the ICS escaper's output is well escaped
(every backslash, semicolon and comma occurrence is carried by exactly
one escaping backslash) and decoding it recovers the input exactly (no
other character is altered and nothing else is inserted). -/
theorem escaping_C7_ics (s : String) :
    IcsEscaped (icsEscape s).data ∧ icsUnescape (icsEscape s).data = s.data := by
  constructor
  · exact icsEscaped_mapJoin s.data
  · exact icsUnescape_mapJoin s.data

/-! ### C8: XML escaping -/

theorem xmlPass_char (c : Char) :
    mapJoin (repChar squote "&apos;".data) (mapJoin (repChar dquote "&quot;".data)
      (mapJoin (repChar '>' "&gt;".data) (mapJoin (repChar '<' "&lt;".data)
        (repChar '&' "&amp;".data c)))) = xmlEntityOf c := by
  by_cases h1 : c = '&'
  · subst h1; decide
  by_cases h2 : c = '<'
  · subst h2; decide
  by_cases h3 : c = '>'
  · subst h3; decide
  by_cases h4 : c = dquote
  · subst h4; decide
  by_cases h5 : c = squote
  · subst h5; decide
  simp [repChar, mapJoin, xmlEntityOf, h1, h2, h3, h4, h5]

theorem xmlEscape_data (s : String) :
    (xmlEscape s).data = mapJoin xmlEntityOf s.data := by
  show mapJoin (repChar squote "&apos;".data) (mapJoin (repChar dquote "&quot;".data)
      (mapJoin (repChar '>' "&gt;".data) (mapJoin (repChar '<' "&lt;".data)
        (mapJoin (repChar '&' "&amp;".data) s.data)))) = mapJoin xmlEntityOf s.data
  induction s.data with
  | nil => rfl
  | cons c cs ih =>
    simp only [mapJoin, mapJoin_append]
    rw [ih, xmlPass_char]

theorem xmlEscaped_mapJoin (l : List Char) : XmlEscaped (mapJoin xmlEntityOf l) := by
  induction l with
  | nil => exact XmlEscaped.nil
  | cons c cs ih =>
    by_cases h : xmlSpecial c = true
    · exact XmlEscaped.ent c h _ ih
    · have h' : xmlSpecial c = false := by simpa using h
      have he : xmlEntityOf c = [c] := by
        have := h'
        simp only [xmlSpecial, Bool.or_eq_false_iff, decide_eq_false_iff_not] at this
        simp [xmlEntityOf, this.1.1.1.1, this.1.1.1.2, this.1.1.2, this.1.2, this.2]
      show XmlEscaped (xmlEntityOf c ++ mapJoin xmlEntityOf cs)
      rw [he]
      exact XmlEscaped.safe c h' _ ih

theorem xml_no_raw (l : List Char) :
    (mapJoin xmlEntityOf l).all
      (fun c => !(c == '<' || c == '>' || c == dquote || c == squote)) = true := by
  induction l with
  | nil => rfl
  | cons c cs ih =>
    show ((xmlEntityOf c ++ mapJoin xmlEntityOf cs).all _) = true
    rw [List.all_append, Bool.and_eq_true]
    refine ⟨?_, ih⟩
    by_cases h1 : c = '&'
    · subst h1; decide
    by_cases h2 : c = '<'
    · subst h2; decide
    by_cases h3 : c = '>'
    · subst h3; decide
    by_cases h4 : c = dquote
    · subst h4; decide
    by_cases h5 : c = squote
    · subst h5; decide
    simp [xmlEntityOf, h1, h2, h3, h4, h5]

/-- C8: the five sequential replacements of the XML escaper (ampersand
first) act exactly as a single per-character entity substitution, the
output parses as safe characters and whole named entities (so no
unescaped occurrence of the five original characters remains), the
characters lt, gt, quote and apostrophe are absent from the output
altogether, and for every special character of the input its named
entity occurs in the output. -/
theorem escaping_C8_xml (s : String) :
    (xmlEscape s).data = mapJoin xmlEntityOf s.data
    ∧ XmlEscaped (xmlEscape s).data
    ∧ (xmlEscape s).data.all
        (fun c => !(c == '<' || c == '>' || c == dquote || c == squote)) = true
    ∧ ∀ c ∈ s.data, xmlSpecial c = true →
        hasSubList (xmlEntityOf c) (xmlEscape s).data = true := by
  have hd := xmlEscape_data s
  refine ⟨hd, ?_, ?_, ?_⟩
  · rw [hd]; exact xmlEscaped_mapJoin _
  · rw [hd]; exact xml_no_raw _
  · intro c hc _
    rw [hd]
    exact mem_mapJoin_infix hc _

/-- Closed instance of the C8 theorem at a concrete input. -/
theorem escaping_C8_xml_witness :
    hasSubList (xmlEntityOf '&') (xmlEscape "a&b").data = true :=
  (escaping_C8_xml "a&b").2.2.2 '&' (by decide) (by decide)

/-! ### C9: feed ordering -/

theorem mem_insertLe {α : Type} (le : α → α → Bool) (a b : α) (l : List α) :
    b ∈ insertLe le a l ↔ b = a ∨ b ∈ l := by
  induction l with
  | nil => simp [insertLe]
  | cons c cs ih =>
    by_cases h : le a c = true
    · simp [insertLe, h]
    · simp only [insertLe, h, if_false, Bool.false_eq_true, List.mem_cons, ih]
      tauto

theorem pairwise_insertLe {α : Type} (le : α → α → Bool)
    (total : ∀ x y, le x y = true ∨ le y x = true)
    (trans : ∀ x y z, le x y = true → le y z = true → le x z = true)
    (a : α) (l : List α) (h : l.Pairwise (fun x y => le x y = true)) :
    (insertLe le a l).Pairwise (fun x y => le x y = true) := by
  induction l with
  | nil => simp [insertLe]
  | cons c cs ih =>
    rcases List.pairwise_cons.mp h with ⟨hc, hcs⟩
    by_cases hac : le a c = true
    · show List.Pairwise _ (if le a c then a :: c :: cs else c :: insertLe le a cs)
      rw [if_pos hac]
      refine List.pairwise_cons.mpr ⟨?_, h⟩
      intro y hy
      rcases List.mem_cons.mp hy with rfl | hy'
      · exact hac
      · exact trans a c y hac (hc y hy')
    · show List.Pairwise _ (if le a c then a :: c :: cs else c :: insertLe le a cs)
      rw [if_neg hac]
      refine List.pairwise_cons.mpr ⟨?_, ih hcs⟩
      intro y hy
      rcases (mem_insertLe le a y cs).mp hy with rfl | hy'
      · rcases total y c with h1 | h1
        · exact absurd h1 hac
        · exact h1
      · exact hc y hy'

theorem pairwise_sortLe {α : Type} (le : α → α → Bool)
    (total : ∀ x y, le x y = true ∨ le y x = true)
    (trans : ∀ x y z, le x y = true → le y z = true → le x z = true)
    (l : List α) : (sortLe le l).Pairwise (fun x y => le x y = true) := by
  induction l with
  | nil => exact List.Pairwise.nil
  | cons x xs ih => exact pairwise_insertLe le total trans x (sortLe le xs) ih

theorem jsonItemLe_total (a b : JFItem) : jsonItemLe a b = true ∨ jsonItemLe b a = true := by
  simp only [jsonItemLe, decide_eq_true_eq]
  omega

theorem jsonItemLe_trans (a b c : JFItem) (h1 : jsonItemLe a b = true)
    (h2 : jsonItemLe b c = true) : jsonItemLe a c = true := by
  simp only [jsonItemLe, decide_eq_true_eq] at h1 h2 ⊢
  omega

theorem atomMatchLe_total (a b : TeamInfo × MatchData) :
    atomMatchLe a b = true ∨ atomMatchLe b a = true := by
  simp only [atomMatchLe, decide_eq_true_eq]
  omega

theorem atomMatchLe_trans (a b c : TeamInfo × MatchData) (h1 : atomMatchLe a b = true)
    (h2 : atomMatchLe b c = true) : atomMatchLe a c = true := by
  simp only [atomMatchLe, decide_eq_true_eq] at h1 h2 ⊢
  omega

/-- C9: the items array of the JSON Feed is ordered non-increasingly by
the parsed date_published value (the very key the source comparator
computes), the flattened (team, match) list of the Atom renderer is
ordered non-increasingly by match timestamp, and the Atom document is
exactly the header followed by one entry per element of that sorted list
in order. -/
theorem ordering_C9_feeds (teams : List TeamData) (u : UrlInfo) (now : String) :
    List.Pairwise
        (fun a b => jsDateMs b.date_published ≤ jsDateMs a.date_published)
        (generateJSONFeed teams u).items
    ∧ List.Pairwise (fun a b => b.2.timestamp ≤ a.2.timestamp) (atomSortedMatches teams)
    ∧ generateAtomFeed teams u now =
        atomHeader teams u now ++
          String.join ((atomSortedMatches teams).map (fun p => atomEntryXml p.1 p.2)) ++
          "</feed>\n" := by
  refine ⟨?_, ?_, rfl⟩
  · have h := pairwise_sortLe jsonItemLe jsonItemLe_total jsonItemLe_trans
      (teams.flatMap (fun td => td.matches.map (fun m => jsonItem td.team m)))
    exact h.imp (fun hab => by
      simpa only [jsonItemLe, decide_eq_true_eq] using hab)
  · have h := pairwise_sortLe atomMatchLe atomMatchLe_total atomMatchLe_trans
      (teams.flatMap (fun td => td.matches.map (fun m => (td.team, m))))
    exact h.imp (fun hab => by
      simpa only [atomMatchLe, decide_eq_true_eq] using hab)

/-! ### C4 and C5: conditional VEVENT lines -/

theorem valarm_not_mem_base (team : TeamInfo) (m : MatchData) :
    "BEGIN:VALARM" ∉ vEventBase team m := by
  intro h
  simp only [vEventBase, List.mem_cons, List.not_mem_nil, or_false] at h
  rcases h with h | h | h | h | h | h | h
  · exact absurd h (by decide)
  · exact str_append_ne 1 (by decide) (by decide) _ h.symm
  · exact str_append_ne 1 (by decide) (by decide) _ h.symm
  · exact str_append_ne 1 (by decide) (by decide) _ h.symm
  · exact str_append_ne 1 (by decide) (by decide) _ h.symm
  · exact str_append_ne 1 (by decide) (by decide) _ h.symm
  · exact absurd h (by decide)

theorem valarm_not_mem_url (m : MatchData) : "BEGIN:VALARM" ∉ vEventUrl m := by
  intro h
  by_cases hu : m.url = ""
  · simp [vEventUrl, hu] at h
  · simp only [vEventUrl, hu, ne_eq, not_false_iff, if_true, List.mem_singleton] at h
    exact str_append_ne 1 (by decide) (by decide) _ h.symm

theorem valarm_not_mem_transp (m : MatchData) : "BEGIN:VALARM" ∉ vEventTransp m := by
  intro h
  cases hu : m.is_upcoming
  · simp only [vEventTransp, hu, Bool.false_eq_true, if_false, List.mem_singleton] at h
    exact absurd h (by decide)
  · simp [vEventTransp, hu] at h

theorem valarm_mem_alarm_iff (team : TeamInfo) (m : MatchData) (r : Int) :
    "BEGIN:VALARM" ∈ vEventAlarm team m r ↔ (m.is_upcoming = true ∧ 0 < r) := by
  by_cases h : (m.is_upcoming && decide (0 < r)) = true
  · have h' := h
    rw [Bool.and_eq_true] at h'
    refine iff_of_true ?_ ⟨h'.1, of_decide_eq_true h'.2⟩
    show "BEGIN:VALARM" ∈ (if m.is_upcoming && decide (0 < r) then _ else ([] : List String))
    rw [if_pos h]
    exact List.mem_cons_self _ _
  · refine iff_of_false ?_ ?_
    · show "BEGIN:VALARM" ∉ (if m.is_upcoming && decide (0 < r) then _ else ([] : List String))
      rw [if_neg h]
      exact List.not_mem_nil _
    · rintro ⟨h1, h2⟩
      exact h (by rw [h1, decide_eq_true h2]; rfl)

/-- C4: a VALARM block occurs among the lines of a rendered VEVENT
exactly when the match is upcoming and the reminder is positive, for
every team, match and reminder value. -/
theorem valarm_C4_iff (team : TeamInfo) (m : MatchData) (r : Int) :
    "BEGIN:VALARM" ∈ generateVEvent team m r ↔ (m.is_upcoming = true ∧ 0 < r) := by
  unfold generateVEvent
  simp only [List.mem_append]
  constructor
  · rintro ((((h | h) | h) | h) | h)
    · exact absurd h (valarm_not_mem_base team m)
    · exact absurd h (valarm_not_mem_url m)
    · exact absurd h (valarm_not_mem_transp m)
    · exact (valarm_mem_alarm_iff team m r).mp h
    · rcases List.mem_singleton.mp h with h1
      exact absurd h1 (by decide)
  · intro hc
    exact Or.inl (Or.inr ((valarm_mem_alarm_iff team m r).mpr hc))

theorem transp_not_mem_base (team : TeamInfo) (m : MatchData) :
    "TRANSP:TRANSPARENT" ∉ vEventBase team m := by
  intro h
  simp only [vEventBase, List.mem_cons, List.not_mem_nil, or_false] at h
  rcases h with h | h | h | h | h | h | h
  · exact absurd h (by decide)
  · exact str_append_ne 1 (by decide) (by decide) _ h.symm
  · exact str_append_ne 1 (by decide) (by decide) _ h.symm
  · exact str_append_ne 1 (by decide) (by decide) _ h.symm
  · exact str_append_ne 1 (by decide) (by decide) _ h.symm
  · exact str_append_ne 1 (by decide) (by decide) _ h.symm
  · exact absurd h (by decide)

theorem transp_not_mem_url (m : MatchData) : "TRANSP:TRANSPARENT" ∉ vEventUrl m := by
  intro h
  by_cases hu : m.url = ""
  · simp [vEventUrl, hu] at h
  · simp only [vEventUrl, hu, ne_eq, not_false_iff, if_true, List.mem_singleton] at h
    exact str_append_ne 1 (by decide) (by decide) _ h.symm

theorem transp_not_mem_alarm (team : TeamInfo) (m : MatchData) (r : Int) :
    "TRANSP:TRANSPARENT" ∉ vEventAlarm team m r := by
  intro h
  unfold vEventAlarm at h
  by_cases hc : (m.is_upcoming && decide (0 < r)) = true
  · rw [if_pos hc] at h
    simp only [List.mem_cons, List.not_mem_nil, or_false] at h
    rcases h with h1 | h1 | h1 | h1 | h1
    · exact absurd h1 (by decide)
    · exact absurd h1 (by decide)
    · exact str_append_ne 1 (by decide) (by decide) _ h1.symm
    · rw [String.append_assoc] at h1
      exact str_append_ne 3 (by decide) (by decide) _ h1.symm
    · exact absurd h1 (by decide)
  · rw [if_neg hc] at h
    exact List.not_mem_nil _ h

theorem transp_mem_transp_iff (m : MatchData) :
    "TRANSP:TRANSPARENT" ∈ vEventTransp m ↔ m.is_upcoming = false := by
  cases hu : m.is_upcoming
  · simp [vEventTransp, hu]
  · simp [vEventTransp, hu]

/-- C5: the TRANSP:TRANSPARENT line occurs among the lines of a rendered
VEVENT exactly when the match is not upcoming, for every team, match and
reminder value. -/
theorem transp_C5_iff (team : TeamInfo) (m : MatchData) (r : Int) :
    "TRANSP:TRANSPARENT" ∈ generateVEvent team m r ↔ m.is_upcoming = false := by
  unfold generateVEvent
  simp only [List.mem_append]
  constructor
  · rintro ((((h | h) | h) | h) | h)
    · exact absurd h (transp_not_mem_base team m)
    · exact absurd h (transp_not_mem_url m)
    · exact (transp_mem_transp_iff m).mp h
    · exact absurd h (transp_not_mem_alarm team m r)
    · rcases List.mem_singleton.mp h with h1
      exact absurd h1 (by decide)
  · intro hc
    exact Or.inl (Or.inl (Or.inr ((transp_mem_transp_iff m).mpr hc)))

/-! ### C10: cross-format identity consistency -/

theorem underscore_mem_wsCollapse (l : List Char) (b : Bool) (h : '_' ∈ l) :
    '_' ∈ wsCollapse b l := by
  induction l generalizing b with
  | nil => cases h
  | cons c cs ih =>
    show '_' ∈ (if isJsWs c then (if b then wsCollapse true cs else '-' :: wsCollapse true cs)
      else c :: wsCollapse false cs)
    rcases List.mem_cons.mp h with rfl | h'
    · have hw : isJsWs '_' = false := by decide
      rw [hw]
      simp only [Bool.false_eq_true, if_false]
      exact List.mem_cons_self _ _
    · by_cases hw : isJsWs c = true
      · rw [hw]
        simp only [if_true]
        cases b
        · simp only [Bool.false_eq_true, if_false]
          exact List.mem_cons_of_mem _ (ih true h')
        · simp only [if_true]
          exact ih true h'
      · rw [eq_false_of_ne_true hw]
        simp only [Bool.false_eq_true, if_false]
        exact List.mem_cons_of_mem _ (ih false h')

/-- C10: the Atom entry id is the urn prefix followed by exactly the
JSON Feed item id of the same (team, match) pair; the two renderers
share one opponent token (whitespace runs to hyphens, lowercase,
underscores untouched), while the ICS UID normalization additionally
turns underscores into hyphens, as the concrete contrasting inputs
show. -/
theorem identity_C10_atom_json (team : TeamInfo) (m : MatchData) :
    atomIdUrn team m = "urn:esports-calendar:" ++ jsonItemId team m
    ∧ atomEntryId team m = jsonItemId team m
    ∧ (∀ s : String, atomOpponentSlug s = jsonOpponentSlug s)
    ∧ (∀ s : String, '_' ∈ s.data → '_' ∈ (jsonOpponentSlug s).data)
    ∧ jsonOpponentSlug "MAD_Lions" = "mad_lions"
    ∧ icsOpponentSlug "MAD_Lions" = "mad-lions" := by
  refine ⟨rfl, rfl, fun s => rfl, ?_, by decide, by decide⟩
  intro s hs
  show '_' ∈ ((wsCollapse false s.data).map Char.toLower)
  exact List.mem_map.mpr ⟨'_', underscore_mem_wsCollapse s.data false hs, by decide⟩

/-- Closed instance of the C10 theorem at a concrete input. -/
theorem identity_C10_atom_json_witness :
    '_' ∈ (jsonOpponentSlug "Los_Ratones").data :=
  (identity_C10_atom_json teamFnatic matchFnaticVsG2).2.2.2.1 "Los_Ratones" (by decide)

/-! ### C6: the tournament filter stage -/

/-- C6: with a non-empty filter, the filter stage narrows every team's
match list to exactly the matches whose tournament contains the filter
case-insensitively, and each of the three format branches renders from
that same narrowed list. -/
theorem filter_C6_tournament (filt : String) (hf : filt ≠ "") (l : List TeamData)
    (r : Int) (u : UrlInfo) (now : String) :
    applyTournamentFilter filt l =
        l.map (fun td =>
          { td with «matches» :=
              (td.matches.filter (fun m => hasSubList (lowerStr filt).data (lowerStr m.tournament).data)) })
    ∧ renderCalendar "ics" filt l r u now =
        CalResponse.icsOk (generateICS (applyTournamentFilter filt l) r)
    ∧ renderCalendar "json" filt l r u now =
        CalResponse.jsonOk (generateJSONFeed (applyTournamentFilter filt l) u)
    ∧ renderCalendar "rss" filt l r u now =
        CalResponse.atomOk (generateAtomFeed (applyTournamentFilter filt l) u now) := by
  refine ⟨?_, rfl, rfl, rfl⟩
  unfold applyTournamentFilter
  rw [if_neg hf]

/-- Closed instance of the C6 theorem at a concrete input. -/
theorem filter_C6_tournament_witness :
    applyTournamentFilter "lec" [sampleTeamData] =
      [sampleTeamData].map (fun td =>
        { td with «matches» :=
            (td.matches.filter (fun m => hasSubList (lowerStr "lec").data (lowerStr m.tournament).data)) }) :=
  (filter_C6_tournament "lec" (by decide) [sampleTeamData] 30 sampleUrl "now").1

/-! ### C3: reminder validation -/

/-- C3: the reminder values 0 and 1440 are accepted, -1 and 1441 are
rejected, every string parseInt cannot read a number from is rejected,
and a rejected reminder makes the handler answer with the 400 body
before any rendering (no clamping, no defaulting). -/
theorem reminder_C3_validation :
    checkReminder (some "0") = some 0
    ∧ checkReminder (some "1440") = some 1440
    ∧ checkReminder (some "-1") = none
    ∧ checkReminder (some "1441") = none
    ∧ (∀ s : String, jsParseInt s = none → checkReminder (some s) = none)
    ∧ (∀ (req : CalRequest) (lookup : String → Option TeamData) (now : String),
        checkReminder req.reminderParam = none →
        onRequest req lookup now = CalResponse.badRequest reminderErrorMsg) := by
  refine ⟨by decide, by decide, by decide, by decide, ?_, ?_⟩
  · intro s h
    simp [checkReminder, h]
  · intro req lookup now h
    unfold onRequest
    rw [h]

/-- Closed instance of the C3 theorem: a non-numeric reminder string
yields the 400 response. -/
theorem reminder_C3_validation_witness :
    onRequest reqBadReminder lookupNone "now" = CalResponse.badRequest reminderErrorMsg :=
  reminder_C3_validation.2.2.2.2.2 reqBadReminder lookupNone "now" (by decide)

/-! ### C1: UID canonicalization across the two participants -/

/-- C1 fails on the code: for the repository's own fixture pair (Fnatic
with slug Fnatic, G2 Esports with slug G2_Esports) the same match at the
same timestamp yields two different UIDs, because the underscore of the
recording team's own slug is kept while the underscore-to-hyphen rule is
applied only to the opponent's display name. -/
theorem identity_C1_uid_not_commutative :
    matchFnaticVsG2.opponent = teamG2.name
    ∧ matchG2VsFnatic.opponent = teamFnatic.name
    ∧ matchFnaticVsG2.timestamp = matchG2VsFnatic.timestamp
    ∧ icsUid teamFnatic matchFnaticVsG2 = "fnatic-vs-g2-esports-1700000000@esports-calendar"
    ∧ icsUid teamG2 matchG2VsFnatic = "fnatic-vs-g2_esports-1700000000@esports-calendar"
    ∧ icsUid teamFnatic matchFnaticVsG2 ≠ icsUid teamG2 matchG2VsFnatic := by
  decide

/-! ### C2: the score segment of the description -/

/-- C2 fails on the code: the completed fixture match carries the score
string, yet no line of its rendered VEVENT mentions a Score segment, and
generateVEvent is entirely independent of the score field. -/
theorem description_C2_score_missing :
    (matchPast.is_upcoming = false ∧ matchPast.score = some "2 : 1"
      ∧ (generateVEvent teamFnatic matchPast 30).all
          (fun line => !hasSubList ("Score:".data) line.data) = true)
    ∧ ∀ (team : TeamInfo) (m : MatchData) (r : Int) (sc : Option String),
        generateVEvent team { m with score := sc } r = generateVEvent team m r := by
  refine ⟨by decide, ?_⟩
  intro team m r sc
  cases m
  rfl

end EsCal
